import Mathlib

/-!
Verification of the hotto-docker container lifecycle library.

The Rust sources are shallowly embedded: each definition below mirrors one
function of the repository.  Streams of log lines are modelled as a finite
list of observed events followed by a tail behaviour (the stream either
closes or stalls forever); a function that can block forever returns an
`Option`, where `none` means the call never returns.  Timestamps and
durations are natural numbers of milliseconds.  A Rust panic is modelled as
the `Except.error` branch of an `Except String` result.
-/

instance {e a : Type} [DecidableEq e] [DecidableEq a] : DecidableEq (Except e a) := fun x y =>
  match x, y with
  | Except.ok v, Except.ok w =>
    if h : v = w then isTrue (by rw [h]) else isFalse (fun he => by cases he; exact h rfl)
  | Except.error v, Except.error w =>
    if h : v = w then isTrue (by rw [h]) else isFalse (fun he => by cases he; exact h rfl)
  | Except.ok _, Except.error _ => isFalse (fun he => by cases he)
  | Except.error _, Except.ok _ => isFalse (fun he => by cases he)

/-- Models Rust `line.contains(message)`: case-sensitive unanchored substring
search. -/
def str_contains (line message : String) : Bool :=
  decide (message.data <:+: line.data)

/-- Models `WaitError` of `errors.rs` (`EndOfStream`, `WaitDurationExpired`,
`Io`); the payload of `Io` is irrelevant to the claims and dropped. -/
inductive WaitError
  | EndOfStream
  | WaitDurationExpired
  | Io
deriving DecidableEq, Repr

/-- Behaviour of a line stream after its listed events: docker logs either
closes the pipe or blocks forever on the next read. -/
inductive StreamTail
  | closed
  | stalled
deriving DecidableEq, Repr

/-- Models the shared loop body of `LogsCommand::wait_for_message_in_stdout`
and `LogsCommand::wait_for_message_in_stderr` (`commands.rs` lines 83-116 and
133-166, identical except for the stream read).  Each event is a pair of the
elapsed time (since `start_time`) at which the line read completes and the
line text.  The code first compares the line against the message, then checks
whether the aggregate elapsed time has reached `wait_duration`; the read
itself is not bounded, so a stalled stream makes the call block forever
(`none`). -/
def logs_wait_loop : List (Nat × String) → StreamTail → String → Nat → Option (Except WaitError Unit)
  | [], StreamTail.closed, _, _ => some (Except.error WaitError.EndOfStream)
  | [], StreamTail.stalled, _, _ => none
  | (t, line) :: rest, tail, message, wait_duration =>
    if str_contains line message then some (Except.ok ())
    else if wait_duration ≤ t then some (Except.error WaitError.WaitDurationExpired)
    else logs_wait_loop rest tail message wait_duration

/-- Models `LogsCommand::wait_for_message_in_stdout`; the events are the lines
read from the stdout pipe of `docker logs -f`. -/
def wait_for_message_in_stdout (events : List (Nat × String)) (tail : StreamTail)
    (message : String) (wait_duration : Nat) : Option (Except WaitError Unit) :=
  logs_wait_loop events tail message wait_duration

/-- Models `LogsCommand::wait_for_message_in_stderr`; the events are the lines
read from the stderr pipe of `docker logs -f`. -/
def wait_for_message_in_stderr (events : List (Nat × String)) (tail : StreamTail)
    (message : String) (wait_duration : Nat) : Option (Except WaitError Unit) :=
  logs_wait_loop events tail message wait_duration

/-- Models the `WaitError` enum declared in `wait_for_message.rs` (a distinct
type from the one in `errors.rs`): only `EndOfStream` and `Io`. -/
inductive MsgWaitError
  | EndOfStream
  | Io
deriving DecidableEq, Repr

/-- Models `WaitForMessage::wait_for_message` of `wait_for_message.rs`: scan
an untimed line stream for the first line containing `message`, counting
compared lines in `compared` (the `number_of_compared_lines` diagnostic).
Returns `none` when the stream stalls before a match. -/
def wait_for_message (lines : List String) (tail : StreamTail) (message : String)
    (compared : Nat) : Option (Except MsgWaitError Unit × Nat) :=
  match lines with
  | [] =>
    match tail with
    | StreamTail.closed => some (Except.error MsgWaitError.EndOfStream, compared)
    | StreamTail.stalled => none
  | line :: rest =>
    if str_contains line message then some (Except.ok (), compared + 1)
    else wait_for_message rest tail message (compared + 1)

/-- Models the `Ports` struct of `commands.rs` / `docker.rs`: a map from
internal port to host port.  The `HashMap<u16, u16>` is modelled as an
association list with unique keys: insertion replaces any entry with the same
key, lookup scans for the key. -/
structure Ports where
  mapping : List (Nat × Nat)
deriving DecidableEq, Repr

/-- Models `Ports::default()`: the empty mapping. -/
def Ports.empty : Ports := ⟨[]⟩

/-- Models `Ports::add_mapping`: `HashMap::insert`, replacing any previous
binding of `internal`. -/
def add_mapping (p : Ports) (internal host : Nat) : Ports :=
  ⟨(internal, host) :: p.mapping.filter (fun q => q.1 != internal)⟩

/-- Models `Ports::map_to_host_port`: `HashMap::get` followed by `cloned`. -/
def map_to_host_port (p : Ports) (internal_port : Nat) : Option Nat :=
  (p.mapping.find? (fun q => q.1 == internal_port)).map (fun q => q.2)

/-- A port table built from the empty table by a sequence of
`add_mapping` calls. -/
def build_ports (ops : List (Nat × Nat)) : Ports :=
  ops.foldl (fun p q => add_mapping p q.1 q.2) Ports.empty

/-- Models Rust `str::parse::<bool>()`: only the exact strings `true` and
`false` parse. -/
def parse_bool (s : String) : Option Bool :=
  if s = "true" then some true else if s = "false" then some false else none

/-- Models the `KEEP_CONTAINERS` read in `Drop for Container`
(`container.rs` lines 238-241): `var("KEEP_CONTAINERS").ok().and_then(parse
ok).unwrap_or(false)`.  The argument is the value of the environment
variable, `none` when unset. -/
def keep_container (env_value : Option String) : Bool :=
  (env_value.bind parse_bool).getD false

/-- Argument list of the process spawned by `RmCommand::rm_container`. -/
def rm_container_args (container_id : String) : List String :=
  ["docker", "rm", "-f", "-v", container_id]

/-- Argument list of the process spawned by `StopCommand::stop_container`. -/
def stop_container_args (container_id : String) : List String :=
  ["docker", "stop", container_id]

/-- Models the body of `Drop for Container` (`container.rs` lines 237-247):
the engine command issued on handle disposal, as a function of the
`KEEP_CONTAINERS` environment value. -/
def container_drop_command (env_value : Option String) (container_id : String) : List String :=
  if keep_container env_value then stop_container_args container_id
  else rm_container_args container_id

/-- Models the `PortMapping` struct of `docker_parse.rs` (`HostIp`,
`HostPort`). -/
structure PortMapping where
  ip : String
  port : String
deriving DecidableEq, Repr

/-- Decimal value of a list of digit characters. -/
def digits_val (l : List Char) : Nat :=
  l.foldl (fun acc c => acc * 10 + (c.toNat - 48)) 0

/-- Models Rust `port.parse::<u16>()` as used by `Ports::parse_port`
(`docker_parse.rs` lines 58-61): an optional leading `+`, then one or more
ASCII digits, value at most 65535.  `none` models the parse error that the
code turns into a panic. -/
def parse_port (port : String) : Option Nat :=
  let ds := match port.data with
            | c :: rest => if c = '+' then rest else port.data
            | [] => []
  if ds ≠ [] ∧ ds.all Char.isDigit = true then
    if digits_val ds < 65536 then some (digits_val ds) else none
  else none

/-- Models `internal.split('/').next().unwrap()` (`docker_parse.rs` line 48):
the substring of the key before the first `/` (the whole key when it has no
`/`).  The split iterator always yields at least one piece, so the `unwrap`
never panics and this function is total. -/
def port_piece (internal : String) : String :=
  ⟨internal.data.takeWhile (fun c => c != '/')⟩

/-- The loop body of `Ports::into_ports` (`docker_parse.rs` lines 36-56),
processing the map entries in iteration order.  For each entry the code pops
the LAST element of the binding vector (`Vec::pop`); an absent or empty
binding list skips the entry.  A failed `u16` parse of either the internal
piece or the host port string panics, modelled as `Except.error`. -/
def into_ports_loop : List (String × Option (List PortMapping)) → Ports → Except String Ports
  | [], acc => Except.ok acc
  | (internal, external) :: rest, acc =>
    match (external.bind List.getLast?).map PortMapping.port with
    | none => into_ports_loop rest acc
    | some external_port =>
      match parse_port (port_piece internal) with
      | none => Except.error ("Failed to parse " ++ port_piece internal ++ " as u16")
      | some iport =>
        match parse_port external_port with
        | none => Except.error ("Failed to parse " ++ external_port ++ " as u16")
        | some eport => into_ports_loop rest (add_mapping acc iport eport)

/-- Models `Ports::into_ports`: fold the entries of the inspected
`port/protocol -> bindings` map (HashMap iteration order modelled as list
order) into a fresh port table. -/
def into_ports (entries : List (String × Option (List PortMapping))) : Except String Ports :=
  into_ports_loop entries Ports.empty

/-- An entry of the inspection map passes numeric parsing: either it has no
usable binding (and is skipped), or both its internal piece and the popped
host port string parse as `u16`. -/
def entry_parse_ok (e : String × Option (List PortMapping)) : Bool :=
  match (e.2.bind List.getLast?).map PortMapping.port with
  | none => true
  | some ep => (parse_port (port_piece e.1)).isSome && (parse_port ep).isSome

/-- Models the `ContainerInfo` struct of `docker_parse.rs`: the container
identifier and the `NetworkSettings.Ports` map. -/
structure ContainerInfo where
  id : String
  ports : List (String × Option (List PortMapping))
deriving DecidableEq, Repr

/-- Models `InspectCommand::get_container_info` (`commands.rs` lines 249-266
and `docker.rs` lines 205-221) after the JSON decode: `infos.remove(0)` on
the decoded vector of container descriptions.  `remove(0)` on an empty
vector panics, modelled as `Except.error`; on a longer vector it simply
returns the first element. -/
def get_container_info (infos : List ContainerInfo) : Except String ContainerInfo :=
  match infos with
  | [] => Except.error "removal index (is 0) should be < len (is 0)"
  | i :: _ => Except.ok i

/-- Models the `StreamType` enum used by `container.rs`. -/
inductive StreamType
  | StdOut
  | StdErr
deriving DecidableEq, Repr

/-- Models the `WaitFor` enum used by `container.rs` (`Nothing`, or
`LogMessage { message, stream_type, wait_duration }`). -/
inductive WaitFor
  | Nothing
  | LogMessage (message : String) (stream_type : StreamType) (wait_duration : Nat)
deriving DecidableEq, Repr

/-- The observable log streams of a container: the stdout and stderr events
(elapsed read-completion time and line) of a freshly opened
`docker logs -f`, each with its tail behaviour. -/
structure ContainerLogs where
  stdout_events : List (Nat × String)
  stdout_tail : StreamTail
  stderr_events : List (Nat × String)
  stderr_tail : StreamTail

/-- Models `Container::block_until_ready` (`container.rs` lines 147-166).
The second component records whether a log stream was opened for marker
matching: the `LogMessage` arms spawn `docker logs -f`, the `Nothing` arm
does nothing and succeeds immediately. -/
def block_until_ready (w : WaitFor) (logs : ContainerLogs) :
    Option (Except WaitError Unit) × Bool :=
  match w with
  | WaitFor.Nothing => (some (Except.ok ()), false)
  | WaitFor.LogMessage message stream_type wait_duration =>
    match stream_type with
    | StreamType.StdOut =>
      (wait_for_message_in_stdout logs.stdout_events logs.stdout_tail message wait_duration, true)
    | StreamType.StdErr =>
      (wait_for_message_in_stderr logs.stderr_events logs.stderr_tail message wait_duration, true)

/-- Models `ONE_SECOND` of `container.rs`, in milliseconds. -/
def ONE_SECOND : Nat := 1000

/-- Models `Container::register_container_started`: insert the creation
instant into the startup-timestamp map owned by this handle (`HashMap`
insert, modelled as cons with first-match lookup). -/
def register_container_started (reg : List (String × Nat)) (container_id : String)
    (start_timestamp : Nat) : List (String × Nat) :=
  (container_id, start_timestamp) :: reg

/-- Models `Container::time_since_container_was_started`: elapsed time since
the registered creation instant of this container, if registered. -/
def time_since_container_was_started (reg : List (String × Nat)) (container_id : String)
    (now : Nat) : Option Nat :=
  (reg.find? (fun p => p.1 == container_id)).map (fun p => now - p.2)

/-- Models `Container::wait_at_least_one_second_after_container_was_started`:
the duration slept (zero when at least one second has already elapsed or the
container is not registered). -/
def wait_one_second_sleep (reg : List (String × Nat)) (container_id : String)
    (now : Nat) : Nat :=
  match time_since_container_was_started reg container_id now with
  | some d => if d < ONE_SECOND then ONE_SECOND - d else 0
  | none => 0

/-- Sleep performed by `Container::print_stdout` before it starts tailing. -/
def print_stdout_sleep (reg : List (String × Nat)) (container_id : String) (now : Nat) : Nat :=
  wait_one_second_sleep reg container_id now

/-- Sleep performed by `Container::print_stderr` before it starts tailing. -/
def print_stderr_sleep (reg : List (String × Nat)) (container_id : String) (now : Nat) : Nat :=
  wait_one_second_sleep reg container_id now

/-- Models `Container::run_background_logs`: with neither stream requested it
is a no-op (`none`, no wait, no tailing); otherwise it performs the grace
wait and starts tailing, returning the slept duration. -/
def run_background_logs_sleep (reg : List (String × Nat)) (container_id : String)
    (now : Nat) (want_stdout want_stderr : Bool) : Option Nat :=
  if !want_stdout && !want_stderr then none
  else some (wait_one_second_sleep reg container_id now)

lemma find_filter_ne (l : List (Nat × Nat)) (a i : Nat) (h : i ≠ a) :
    (l.filter (fun q => q.1 != a)).find? (fun q => q.1 == i) = l.find? (fun q => q.1 == i) := by
  induction l with
  | nil => rfl
  | cons q rest ih =>
    by_cases hq : q.1 = a
    · have h1 : (q.1 != a) = false := by simp [hq]
      have h2 : (q.1 == i) = false := by simp [hq]; exact fun he => h he.symm
      simp [List.filter_cons, h1, List.find?, h2, ih]
    · have h1 : (q.1 != a) = true := by simp [hq]
      by_cases h2 : q.1 = i
      · simp [List.filter_cons, h1, List.find?, h2, h]
      · have h3 : (q.1 == i) = false := by simp [h2]
        simp [List.filter_cons, h1, List.find?, h3, ih]

lemma map_to_host_port_add_other (p : Ports) (a b i : Nat) (h : i ≠ a) :
    map_to_host_port (add_mapping p a b) i = map_to_host_port p i := by
  have h1 : (a == i) = false := by simp; exact fun he => h he.symm
  simp [map_to_host_port, add_mapping, List.find?, h1, find_filter_ne _ _ _ h]

lemma build_ports_not_mem (ops : List (Nat × Nat)) (p : Ports) (i : Nat)
    (h : i ∉ ops.map Prod.fst) :
    map_to_host_port (ops.foldl (fun p q => add_mapping p q.1 q.2) p) i = map_to_host_port p i := by
  induction ops generalizing p with
  | nil => rfl
  | cons q rest ih =>
    simp only [List.map_cons, List.mem_cons, not_or] at h
    rw [List.foldl_cons, ih _ h.2, map_to_host_port_add_other _ _ _ _ h.1]

/-- C5: after `add_mapping internal host`, the lookup `map_to_host_port
internal` answers `host`; and on a table built from the empty table by any
sequence of `add_mapping` calls that never registered `internal`, the lookup
answers `none` (absence, not an error).  The lookup is a pure function in
this model by construction. -/
theorem ports_lookup_laws (p : Ports) (internal host : Nat) (ops : List (Nat × Nat)) :
    map_to_host_port (add_mapping p internal host) internal = some host
    ∧ (internal ∉ ops.map Prod.fst → map_to_host_port (build_ports ops) internal = none) := by
  constructor
  · simp [map_to_host_port, add_mapping, List.find?]
  · intro h
    rw [build_ports, build_ports_not_mem _ _ _ h]
    rfl

/-- Witness for C5: a concrete table where port 1 maps to 2 and port 3 was
never registered. -/
theorem ports_lookup_laws_witness :
    map_to_host_port (add_mapping Ports.empty 5432 49155) 5432 = some 49155
    ∧ map_to_host_port (build_ports [(1, 2)]) 3 = none :=
  ⟨(ports_lookup_laws Ports.empty 5432 49155 [(1, 2)]).1,
   (ports_lookup_laws Ports.empty 5432 49155 [(1, 2)]).2 (by decide)⟩

/-- C7: the teardown command issued on handle disposal is the stop verb
exactly when `KEEP_CONTAINERS` is set to the string `true`; when it is unset
or set to any other value (including `false` and strings that do not parse
as a boolean) the forced remove verb with volume cleanup `rm -f -v` is
issued. -/
theorem drop_reads_keep_containers (env_value : Option String) (container_id : String) :
    container_drop_command env_value container_id =
      if env_value = some "true" then stop_container_args container_id
      else rm_container_args container_id := by
  rcases env_value with _ | v
  · simp [container_drop_command, keep_container]
  · by_cases h1 : v = "true"
    · subst h1; simp [container_drop_command, keep_container, parse_bool]
    · by_cases h2 : v = "false"
      · subst h2; simp [container_drop_command, keep_container, parse_bool]
      · simp [container_drop_command, keep_container, parse_bool, h1, h2]

/-- C8: with a readiness specification of kind `Nothing`,
`block_until_ready` succeeds immediately and no log stream is opened for
marker matching, whatever the log streams of the container would contain. -/
theorem nothing_ready_immediately (logs : ContainerLogs) :
    block_until_ready WaitFor.Nothing logs = (some (Except.ok ()), false) := rfl

/-- C3 counterexample: a decoded inspection response with TWO container
descriptions is accepted by `get_container_info` (it returns the first),
while the claim requires any cardinality other than one to be an error. -/
theorem inspect_two_descriptions_accepted :
    get_container_info [⟨"cid1", []⟩, ⟨"cid2", []⟩] = Except.ok ⟨"cid1", []⟩
    ∧ ([(⟨"cid1", []⟩ : ContainerInfo), ⟨"cid2", []⟩]).length ≠ 1 :=
  ⟨rfl, by decide⟩

/-- C3 amended: `get_container_info` succeeds exactly when the decoded
response contains at least one container description, returning the first
one; an empty response panics (an error), but a response with more than one
description is not rejected. -/
theorem inspect_takes_first_description (infos : List ContainerInfo) :
    ((∃ i, get_container_info infos = Except.ok i) ↔ infos ≠ [])
    ∧ (∀ i rest, get_container_info (i :: rest) = Except.ok i)
    ∧ (∃ e, get_container_info [] = Except.error e) := by
  refine ⟨?_, fun i rest => rfl, ⟨_, rfl⟩⟩
  cases infos with
  | nil => simp [get_container_info]
  | cons i rest => simp [get_container_info]

lemma into_ports_loop_skip (k : String) (ext : Option (List PortMapping))
    (hext : ext = none ∨ ext = some [])
    (pre post : List (String × Option (List PortMapping))) (acc : Ports) :
    into_ports_loop (pre ++ (k, ext) :: post) acc = into_ports_loop (pre ++ post) acc := by
  induction pre generalizing acc with
  | nil =>
    rcases hext with h | h <;> subst h <;> simp [into_ports_loop]
  | cons e rest ih =>
    rcases e with ⟨i, ex⟩
    simp only [List.cons_append, into_ports_loop]
    cases hm : (ex.bind List.getLast?).map PortMapping.port with
    | none => dsimp only; exact ih _
    | some ep =>
      dsimp only
      cases hp : parse_port (port_piece i) with
      | none => rfl
      | some ip =>
        dsimp only
        cases hq : parse_port ep with
        | none => rfl
        | some e2 => dsimp only; exact ih _

/-- C6: an entry of the inspection map whose host-binding list is absent
(`none`) or empty (`some []`) is skipped by `into_ports`: the result is
exactly the result of parsing the remaining entries, so the port is omitted,
nothing panics on it, no placeholder mapping is inserted, and all other
entries are processed unchanged. -/
theorem into_ports_omits_unbound (pre post : List (String × Option (List PortMapping)))
    (k : String) :
    into_ports (pre ++ (k, none) :: post) = into_ports (pre ++ post)
    ∧ into_ports (pre ++ (k, some []) :: post) = into_ports (pre ++ post) :=
  ⟨into_ports_loop_skip k none (Or.inl rfl) pre post Ports.empty,
   into_ports_loop_skip k (some []) (Or.inr rfl) pre post Ports.empty⟩

/-- C2 counterexample: an inspection entry for internal key `5432/tcp` with
two host bindings, `33061` listed first and `49155` listed second.  The code
pops the LAST element of the binding vector, so the table answers `49155`
for port 5432 and not the first-listed `33061` that the claim requires. -/
theorem into_ports_records_last_not_first :
    into_ports [("5432/tcp", some [⟨"0.0.0.0", "33061"⟩, ⟨"0.0.0.0", "49155"⟩])]
      = Except.ok ⟨[(5432, 49155)]⟩
    ∧ (49155 : Nat) ≠ 33061 :=
  ⟨by decide, by decide⟩

/-- C2 amended: for an inspection response with one internal key carrying a
nonempty binding list, `into_ports` records exactly one mapping for that
internal port, and the host port recorded is the LAST reported binding in
the list (the code removes it with `Vec::pop`), provided both numeric
strings parse. -/
theorem into_ports_takes_last_binding (k : String) (bs : List PortMapping) (m : PortMapping)
    (iport eport : Nat) (h1 : bs.getLast? = some m)
    (h2 : parse_port (port_piece k) = some iport) (h3 : parse_port m.port = some eport) :
    into_ports [(k, some bs)] = Except.ok ⟨[(iport, eport)]⟩ := by
  simp [into_ports, into_ports_loop, h1, h2, h3, add_mapping, Ports.empty]

/-- Witness for C2 amended: key `6379/tcp` with two bindings; the table maps
6379 to the last listed host port 42000. -/
theorem into_ports_takes_last_binding_witness :
    into_ports [("6379/tcp", some [⟨"0.0.0.0", "41000"⟩, ⟨"::", "42000"⟩])]
      = Except.ok ⟨[(6379, 42000)]⟩ :=
  into_ports_takes_last_binding "6379/tcp" [⟨"0.0.0.0", "41000"⟩, ⟨"::", "42000"⟩]
    ⟨"::", "42000"⟩ 6379 42000 (by decide) (by decide) (by decide)

lemma takeWhile_all_of_ne (l : List Char) (h : ∀ c ∈ l, c ≠ '/') :
    l.takeWhile (fun c => c != '/') = l := by
  induction l with
  | nil => rfl
  | cons c rest ih =>
    have hc : (c != '/') = true := by simpa using h c (List.mem_cons_self _ _)
    simp only [List.takeWhile_cons, hc, if_true]
    rw [ih (fun x hx => h x (List.mem_cons_of_mem _ hx))]

lemma takeWhile_append_slash (l r : List Char) (h : ∀ c ∈ l, c ≠ '/') :
    (l ++ '/' :: r).takeWhile (fun c => c != '/') = l := by
  induction l with
  | nil => simp [List.takeWhile_cons]
  | cons c rest ih =>
    have hc : (c != '/') = true := by simpa using h c (List.mem_cons_self _ _)
    simp only [List.cons_append, List.takeWhile_cons, hc, if_true]
    rw [ih (fun x hx => h x (List.mem_cons_of_mem _ hx))]

lemma port_piece_no_slash (s : String) (h : ∀ c ∈ s.data, c ≠ '/') : port_piece s = s := by
  cases s with
  | mk l =>
    show (⟨l.takeWhile (fun c => c != '/')⟩ : String) = ⟨l⟩
    rw [takeWhile_all_of_ne l h]

lemma port_piece_append_tcp (s : String) (h : ∀ c ∈ s.data, c ≠ '/') :
    port_piece (s ++ "/tcp") = port_piece s := by
  cases s with
  | mk l =>
    show (⟨(l ++ ['/', 't', 'c', 'p']).takeWhile (fun c => c != '/')⟩ : String)
        = ⟨l.takeWhile (fun c => c != '/')⟩
    rw [takeWhile_append_slash l _ h, takeWhile_all_of_ne l h]

lemma into_ports_loop_ok_iff (entries : List (String × Option (List PortMapping)))
    (acc : Ports) :
    (∃ t, into_ports_loop entries acc = Except.ok t)
    ↔ ∀ e ∈ entries, entry_parse_ok e = true := by
  induction entries generalizing acc with
  | nil => simp [into_ports_loop]
  | cons e rest ih =>
    rcases e with ⟨i, ex⟩
    simp only [List.forall_mem_cons]
    cases hm : (ex.bind List.getLast?).map PortMapping.port with
    | none =>
      have he : entry_parse_ok (i, ex) = true := by simp [entry_parse_ok, hm]
      simp only [into_ports_loop, hm, he, true_and]
      exact ih acc
    | some ep =>
      cases hp : parse_port (port_piece i) with
      | none =>
        have he : entry_parse_ok (i, ex) = false := by simp [entry_parse_ok, hm, hp]
        simp [into_ports_loop, hm, hp, he]
      | some ip =>
        cases hq : parse_port ep with
        | none =>
          have he : entry_parse_ok (i, ex) = false := by simp [entry_parse_ok, hm, hp, hq]
          simp [into_ports_loop, hm, hp, hq, he]
        | some e2 =>
          have he : entry_parse_ok (i, ex) = true := by simp [entry_parse_ok, hm, hp, hq]
          simp only [into_ports_loop, hm, hp, hq, he, true_and]
          exact ih _

/-- C10: the projection of an internal `port/protocol` key takes the piece
before the first slash and never fails: a key without a slash is used whole,
and an entry keyed by such a bare key is parsed exactly like the same key
with a `/tcp` suffix; moreover `into_ports` succeeds precisely when every
entry with a usable host binding has both numeric strings parse as `u16`,
so the declared parse failure is the only panic of this projection. -/
theorem port_key_split_total_and_parse_only_panic (s : String)
    (b : Option (List PortMapping)) (entries : List (String × Option (List PortMapping)))
    (h : ∀ c ∈ s.data, c ≠ '/') :
    port_piece s = s
    ∧ into_ports [(s, b)] = into_ports [(s ++ "/tcp", b)]
    ∧ ((∃ t, into_ports entries = Except.ok t) ↔ ∀ e ∈ entries, entry_parse_ok e = true) := by
  refine ⟨port_piece_no_slash s h, ?_, into_ports_loop_ok_iff entries Ports.empty⟩
  simp only [into_ports, into_ports_loop, port_piece_append_tcp s h]

/-- Witness for C10 at the concrete key 5432 with one binding and a
well-formed singleton response. -/
theorem port_key_split_total_and_parse_only_panic_witness :
    port_piece "5432" = "5432"
    ∧ into_ports [("5432", some [⟨"0.0.0.0", "49155"⟩])]
        = into_ports [("5432" ++ "/tcp", some [⟨"0.0.0.0", "49155"⟩])]
    ∧ ((∃ t, into_ports [("80/tcp", some [⟨"", "8080"⟩])] = Except.ok t)
        ↔ ∀ e ∈ [("80/tcp", some [⟨"", "8080"⟩])], entry_parse_ok e = true) :=
  port_key_split_total_and_parse_only_panic "5432" (some [⟨"0.0.0.0", "49155"⟩])
    [("80/tcp", some [⟨"", "8080"⟩])] (by decide)

lemma wait_for_message_no_match_closed (lines : List String) (message : String)
    (compared : Nat) (h : ∀ l ∈ lines, str_contains l message = false) :
    wait_for_message lines StreamTail.closed message compared
      = some (Except.error MsgWaitError.EndOfStream, compared + lines.length) := by
  induction lines generalizing compared with
  | nil => simp [wait_for_message]
  | cons l rest ih =>
    have hl : str_contains l message = false := h l (List.mem_cons_self _ _)
    rw [wait_for_message]
    simp only [hl, Bool.false_eq_true, if_false]
    rw [ih (compared + 1) (fun x hx => h x (List.mem_cons_of_mem _ hx))]
    simp only [List.length_cons]
    congr 2
    omega

lemma wait_for_message_no_match_stalled (lines : List String) (message : String)
    (compared : Nat) (h : ∀ l ∈ lines, str_contains l message = false) :
    wait_for_message lines StreamTail.stalled message compared = none := by
  induction lines generalizing compared with
  | nil => rfl
  | cons l rest ih =>
    have hl : str_contains l message = false := h l (List.mem_cons_self _ _)
    rw [wait_for_message]
    simp only [hl, Bool.false_eq_true, if_false]
    exact ih (compared + 1) (fun x hx => h x (List.mem_cons_of_mem _ hx))

lemma wait_for_message_first_match (lines : List String) (tail : StreamTail) (message : String)
    (compared : Nat) (h : ∃ l ∈ lines, str_contains l message = true) :
    wait_for_message lines tail message compared
      = some (Except.ok (), compared + lines.findIdx (fun l => str_contains l message) + 1) := by
  induction lines generalizing compared with
  | nil => simp at h
  | cons l rest ih =>
    by_cases hl : str_contains l message = true
    · rw [wait_for_message]
      simp [hl, List.findIdx_cons]
    · have h2 : ∃ x ∈ rest, str_contains x message = true := by
        rcases h with ⟨x, hx, hc⟩
        rcases List.mem_cons.mp hx with rfl | hx2
        · exact absurd hc hl
        · exact ⟨x, hx2, hc⟩
      rw [wait_for_message]
      have hl2 : str_contains l message = false := by
        cases hb : str_contains l message
        · rfl
        · exact absurd hb hl
      simp only [hl2, Bool.false_eq_true, if_false]
      rw [ih (compared + 1) h2, List.findIdx_cons, hl2]
      simp only [cond_false]
      congr 2
      omega

/-- C4: `wait_for_message` succeeds exactly when some line of the stream
contains the marker as a case-sensitive unanchored substring; on success it
stops at the first matching line (having compared exactly the lines up to
and including it); and it fails with `EndOfStream` exactly when the stream
closes (is finite and fully consumed) with no line containing the marker. -/
theorem wait_for_message_marker_spec (lines : List String) (tail : StreamTail)
    (message : String) :
    ((∃ n, wait_for_message lines tail message 0 = some (Except.ok (), n))
      ↔ ∃ l ∈ lines, str_contains l message = true)
    ∧ ((∃ l ∈ lines, str_contains l message = true) →
        wait_for_message lines tail message 0
          = some (Except.ok (), lines.findIdx (fun l => str_contains l message) + 1))
    ∧ ((∃ n, wait_for_message lines tail message 0
          = some (Except.error MsgWaitError.EndOfStream, n))
      ↔ (tail = StreamTail.closed ∧ ∀ l ∈ lines, str_contains l message = false)) := by
  have hnm : (¬ ∃ l ∈ lines, str_contains l message = true) →
      ∀ l ∈ lines, str_contains l message = false := by
    intro h l hl
    cases hb : str_contains l message
    · rfl
    · exact absurd ⟨l, hl, hb⟩ h
  refine ⟨⟨?_, ?_⟩, ?_, ⟨?_, ?_⟩⟩
  · intro ⟨n, hn⟩
    by_contra hno
    have hall := hnm hno
    cases tail
    · rw [wait_for_message_no_match_closed lines message 0 hall] at hn
      exact Option.noConfusion hn (fun he => Prod.noConfusion he (fun h1 _ => Except.noConfusion h1))
    · rw [wait_for_message_no_match_stalled lines message 0 hall] at hn
      exact Option.noConfusion hn
  · intro h
    exact ⟨_, wait_for_message_first_match lines tail message 0 h⟩
  · intro h
    have := wait_for_message_first_match lines tail message 0 h
    rw [this]
    congr 2
    omega
  · intro ⟨n, hn⟩
    by_cases hex : ∃ l ∈ lines, str_contains l message = true
    · rw [wait_for_message_first_match lines tail message 0 hex] at hn
      simp at hn
    · have hall := hnm hex
      cases tail
      · exact ⟨rfl, hall⟩
      · rw [wait_for_message_no_match_stalled lines message 0 hall] at hn
        exact Option.noConfusion hn
  · intro ⟨ht, hall⟩
    subst ht
    exact ⟨_, wait_for_message_no_match_closed lines message 0 hall⟩

/-- Witness for C4: a stream whose second line contains the marker; the call
succeeds having compared exactly two lines. -/
theorem wait_for_message_marker_spec_witness :
    wait_for_message ["starting up", "database ready"] StreamTail.closed "ready" 0
      = some (Except.ok (), 2) := by
  have h := (wait_for_message_marker_spec ["starting up", "database ready"]
      StreamTail.closed "ready").2.1 ⟨"database ready", by decide, by decide⟩
  simpa using h

lemma logs_wait_loop_wde_iff (events : List (Nat × String)) (tail : StreamTail)
    (message : String) (d : Nat) :
    logs_wait_loop events tail message d = some (Except.error WaitError.WaitDurationExpired)
    ↔ ∃ pre x post, events = pre ++ x :: post
        ∧ (∀ y ∈ pre, str_contains y.2 message = false ∧ y.1 < d)
        ∧ str_contains x.2 message = false ∧ d ≤ x.1 := by
  induction events with
  | nil =>
    constructor
    · intro h
      cases tail <;> simp [logs_wait_loop] at h
    · rintro ⟨pre, x, post, h, -⟩
      exact absurd h.symm (List.append_ne_nil_of_right_ne_nil pre (List.cons_ne_nil x post))
  | cons e rest ih =>
    rcases e with ⟨t, line⟩
    by_cases hc : str_contains line message = true
    · rw [logs_wait_loop]
      simp only [hc, if_true]
      constructor
      · intro h
        exact absurd (Option.some.inj h) (fun he => Except.noConfusion he)
      · rintro ⟨pre, x, post, heq, hpre, hx, hd⟩
        cases pre with
        | nil =>
          rw [List.nil_append] at heq
          obtain ⟨h1, -⟩ := List.cons.inj heq
          rw [← h1] at hx
          rw [hx] at hc
          exact Bool.noConfusion hc
        | cons p pre2 =>
          rw [List.cons_append] at heq
          obtain ⟨h1, -⟩ := List.cons.inj heq
          have := (hpre p (List.mem_cons_self _ _)).1
          rw [← h1] at this
          rw [this] at hc
          exact Bool.noConfusion hc
    · have hc2 : str_contains line message = false := by
        cases hb : str_contains line message
        · rfl
        · exact absurd hb hc
      by_cases ht : d ≤ t
      · rw [logs_wait_loop]
        simp only [hc2, Bool.false_eq_true, if_false, ht, if_true]
        constructor
        · intro _
          exact ⟨[], (t, line), rest, rfl, by simp, hc2, ht⟩
        · intro _
          trivial
      · rw [logs_wait_loop]
        simp only [hc2, Bool.false_eq_true, if_false, ht, if_false]
        rw [ih]
        constructor
        · rintro ⟨pre, x, post, heq, hpre, hx, hd⟩
          refine ⟨(t, line) :: pre, x, post, by rw [heq, List.cons_append], ?_, hx, hd⟩
          intro y hy
          rcases List.mem_cons.mp hy with rfl | hy2
          · exact ⟨hc2, Nat.lt_of_not_le ht⟩
          · exact hpre y hy2
        · rintro ⟨pre, x, post, heq, hpre, hx, hd⟩
          cases pre with
          | nil =>
            rw [List.nil_append] at heq
            obtain ⟨h1, -⟩ := List.cons.inj heq
            rw [← h1] at hd
            exact absurd hd ht
          | cons p pre2 =>
            rw [List.cons_append] at heq
            obtain ⟨-, h2⟩ := List.cons.inj heq
            exact ⟨pre2, x, post, h2, fun y hy => hpre y (List.mem_cons_of_mem _ hy), hx, hd⟩

lemma logs_wait_loop_stalled_none (events : List (Nat × String)) (message : String) (d : Nat)
    (h : ∀ y ∈ events, str_contains y.2 message = false ∧ y.1 < d) :
    logs_wait_loop events StreamTail.stalled message d = none := by
  induction events with
  | nil => rfl
  | cons e rest ih =>
    rcases e with ⟨t, line⟩
    obtain ⟨h1, h2⟩ := h (t, line) (List.mem_cons_self _ _)
    rw [logs_wait_loop]
    simp only [h1, Bool.false_eq_true, if_false, Nat.not_le.mpr h2, if_false]
    exact ih (fun y hy => h y (List.mem_cons_of_mem _ hy))

/-- C1 amended: the deadline of `wait_for_message_in_stdout` and
`wait_for_message_in_stderr` is a single aggregate bound checked only after
each received non-matching line: the call fails with `WaitDurationExpired`
exactly when some line completes its read at or past the deadline with it
and every earlier line failing to match (earlier lines having arrived before
the deadline); an individual read is not bounded, so a stream that stalls
without producing a line makes the call block forever instead of failing
with `WaitDurationExpired`; and the stderr variant behaves identically to
the stdout variant. -/
theorem logs_wait_deadline_is_aggregate (events : List (Nat × String)) (tail : StreamTail)
    (message : String) (wait_duration : Nat) :
    (wait_for_message_in_stdout events tail message wait_duration
        = some (Except.error WaitError.WaitDurationExpired)
      ↔ ∃ pre x post, events = pre ++ x :: post
          ∧ (∀ y ∈ pre, str_contains y.2 message = false ∧ y.1 < wait_duration)
          ∧ str_contains x.2 message = false ∧ wait_duration ≤ x.1)
    ∧ ((∀ y ∈ events, str_contains y.2 message = false ∧ y.1 < wait_duration) →
        wait_for_message_in_stdout events StreamTail.stalled message wait_duration = none)
    ∧ wait_for_message_in_stderr events tail message wait_duration
        = wait_for_message_in_stdout events tail message wait_duration :=
  ⟨logs_wait_loop_wde_iff events tail message wait_duration,
   fun h => logs_wait_loop_stalled_none events message wait_duration h,
   rfl⟩

/-- Witness for C1 amended: a single non-matching line arriving at elapsed
time 12 against a deadline of 10 yields `WaitDurationExpired`, and an empty
stalled stream makes the call block forever. -/
theorem logs_wait_deadline_is_aggregate_witness :
    wait_for_message_in_stdout [(12, "starting")] StreamTail.closed "ready" 10
        = some (Except.error WaitError.WaitDurationExpired)
    ∧ wait_for_message_in_stdout [] StreamTail.stalled "ready" 10 = none :=
  ⟨(logs_wait_deadline_is_aggregate [(12, "starting")] StreamTail.closed "ready" 10).1.mpr
      ⟨[], (12, "starting"), [], rfl, by simp, by decide, by decide⟩,
   (logs_wait_deadline_is_aggregate [] StreamTail.stalled "ready" 10).2.1 (by simp)⟩

/-- C1 counterexample: a log stream that stalls indefinitely without
producing a line.  The claim requires the call to fail with
`WaitDurationExpired` once the read outlives the remaining deadline, but the
code never bounds the read: the call blocks forever (`none`) and in
particular does not return `WaitDurationExpired`. -/
theorem stalled_stream_never_expires :
    wait_for_message_in_stdout [] StreamTail.stalled "ready" 5
      ≠ some (Except.error WaitError.WaitDurationExpired) := by decide

lemma fresh_registry_time_since (container_id : String) (t0 now : Nat) :
    time_since_container_was_started (register_container_started [] container_id t0)
      container_id now = some (now - t0) := by
  simp [time_since_container_was_started, register_container_started, List.find?]

/-- C9: for a handle registered at creation time `t0` in its own
startup-timestamp map, every log access (`print_stdout`, `print_stderr`, and
`run_background_logs` with at least one stream requested) first sleeps
exactly the remainder of the one-second grace period when less than one
second has elapsed (and nothing otherwise), so tailing never begins before
`t0 + ONE_SECOND`; requesting neither stream is a no-op with no wait.  The
timestamp map is owned by the handle and keyed by its own identifier, so the
bound is a function of this handle's own creation time only. -/
theorem log_access_grace_period (container_id : String) (t0 now : Nat) (h : t0 ≤ now) :
    (print_stdout_sleep (register_container_started [] container_id t0) container_id now
        = if now - t0 < ONE_SECOND then ONE_SECOND - (now - t0) else 0)
    ∧ t0 + ONE_SECOND
        ≤ now + print_stdout_sleep (register_container_started [] container_id t0)
            container_id now
    ∧ print_stderr_sleep (register_container_started [] container_id t0) container_id now
        = print_stdout_sleep (register_container_started [] container_id t0) container_id now
    ∧ (∀ want_stdout want_stderr : Bool, (want_stdout || want_stderr) = true →
        run_background_logs_sleep (register_container_started [] container_id t0)
            container_id now want_stdout want_stderr
          = some (print_stdout_sleep (register_container_started [] container_id t0)
              container_id now))
    ∧ run_background_logs_sleep (register_container_started [] container_id t0)
        container_id now false false = none := by
  have hs : print_stdout_sleep (register_container_started [] container_id t0) container_id now
      = if now - t0 < ONE_SECOND then ONE_SECOND - (now - t0) else 0 := by
    rw [print_stdout_sleep, wait_one_second_sleep, fresh_registry_time_since]
  refine ⟨hs, ?_, rfl, ?_, rfl⟩
  · rw [hs, ONE_SECOND]
    split_ifs with h1 <;> omega
  · intro o e hoe
    cases o <;> cases e <;> simp_all [run_background_logs_sleep, print_stdout_sleep]

/-- Witness for C9: a handle created at instant 0 and accessed at instant
200 sleeps 800 more milliseconds, and tailing begins no earlier than one
second after creation. -/
theorem log_access_grace_period_witness :
    print_stdout_sleep (register_container_started [] "cafe01" 0) "cafe01" 200 = 800
    ∧ 0 + ONE_SECOND
        ≤ 200 + print_stdout_sleep (register_container_started [] "cafe01" 0) "cafe01" 200 := by
  have h := log_access_grace_period "cafe01" 0 200 (by decide)
  exact ⟨h.1.trans (by decide), h.2.1⟩
